import Mathlib

/-!
# Verification of the Sentinel Worlds save-game editor's codec and validation layer

Shallow embedding of the binary codec (`read_bytes`, `read_string`,
`write_bytes`, `write_string`), the file-validation gate
(`validate_save_file`), the item catalog (`ITEM_NAMES` and the validation
sets), and the decode/encode orchestration (`load_save_game`, `save_game`)
from `src/main.py` and `src/inventory_constants.py`.

A save file is modelled as a `Buffer`: a size together with a byte-valued
function on addresses.  Python file handles opened in `rb+` mode are
modelled by pure reads (`Option`-valued, failing on short reads) and pure
writes (`Except`-valued, failing exactly where the Python code raises).
Python strings are modelled as lists of Unicode code points (`List Nat`).

The module `sw_constants.py` (the address table and magic constants) is
referenced by the sources but is not part of the sources available here;
where its contents are needed they are modelled from the specification, as
flagged in the corresponding doc comments.
-/

/-- Error values for the codec's write primitives, one per `raise` site:
`badWidth` for `write_bytes`'s "Number of bytes to write must be positive",
`outOfRange` for its "Value ... is too large" `ValueError`, `tooLong` for
`write_string`'s "String ... is too long" `ValueError`, and `notAscii` for
the `UnicodeEncodeError` raised by `.encode('ascii')` on a non-ASCII
character. -/
inductive Err where
  | badWidth
  | outOfRange
  | tooLong
  | notAscii
deriving DecidableEq, Repr

/-- A raw save-file image: `size` bytes, with `byteAt i` the byte stored at
address `i` (only addresses `< size` are meaningful). -/
structure Buffer where
  size : Nat
  byteAt : Nat → Nat

/-- A buffer is well formed when every stored byte is an actual byte value. -/
def Buffer.WF (buf : Buffer) : Prop :=
  ∀ i, i < buf.size → buf.byteAt i < 256

/-- Little-endian value of `n` consecutive bytes of `f` starting at `a`
(the `int.from_bytes(bytes_data, byteorder='little')` step of
`read_bytes`). -/
def leValue (f : Nat → Nat) (a : Nat) : Nat → Nat
  | 0 => 0
  | n + 1 => f a + 256 * leValue f (a + 1) n

/-- Function `read_bytes` from `src/main.py`: read `numBytes` consecutive bytes at
`address` as a little-endian unsigned integer.  `none` models both the
`ValueError` for `numBytes < 1` and the `IOError` raised when fewer than
`numBytes` bytes are available before the end of the file. -/
def read_bytes (buf : Buffer) (address : Nat) (numBytes : Nat) : Option Nat :=
  if 1 ≤ numBytes ∧ address + numBytes ≤ buf.size then
    some (leValue buf.byteAt address numBytes)
  else none

/-- Python's `bytes.decode('ascii', errors='replace')`, per byte: bytes
below `0x80` decode to themselves, anything else becomes the replacement
character U+FFFD. -/
def decodeByte (b : Nat) : Nat :=
  if b < 128 then b else 0xFFFD

/-- The ASCII-range characters Python's `str.rstrip()` treats as
whitespace: TAB, LF, VT, FF, CR, FS, GS, RS, US and the space. -/
def pyWs (c : Nat) : Bool :=
  c == 9 || c == 10 || c == 11 || c == 12 || c == 13 ||
  c == 28 || c == 29 || c == 30 || c == 31 || c == 32

/-- Python's `str.rstrip()` on a list of code points: remove the maximal
whitespace suffix. -/
def rstripChars (l : List Nat) : List Nat :=
  (l.reverse.dropWhile pyWs).reverse

/-- Function `read_string` from `src/main.py`: read `length` bytes at `address`,
decode them as ASCII with replacement, and strip the trailing whitespace
(`.decode('ascii', errors='replace').rstrip()`).  `none` models the
`IOError` on a short read. -/
def read_string (buf : Buffer) (address : Nat) (length : Nat) : Option (List Nat) :=
  if address + length ≤ buf.size then
    some (rstripChars ((List.range length).map fun j => decodeByte (buf.byteAt (address + j))))
  else none

/-- Store the little-endian encoding of `v` in `n` bytes at address `a`
(the `value.to_bytes(num_bytes, byteorder='little')` plus `seek`/`write`
steps).  Writing past the current end extends the file, the gap reading as
zero bytes. -/
def storeBytes (buf : Buffer) (a : Nat) (v : Nat) (n : Nat) : Buffer where
  size := max buf.size (a + n)
  byteAt := fun i =>
    if a ≤ i ∧ i < a + n then v / 256 ^ (i - a) % 256
    else if i < buf.size then buf.byteAt i else 0

/-- Store the byte list `l` at address `a`. -/
def storeList (buf : Buffer) (a : Nat) (l : List Nat) : Buffer where
  size := max buf.size (a + l.length)
  byteAt := fun i =>
    if a ≤ i ∧ i < a + l.length then l.getD (i - a) 0
    else if i < buf.size then buf.byteAt i else 0

/-- Function `write_bytes` from `src/main.py`: fail on a non-positive width, fail
with a range error unless `0 ≤ value ≤ 256^numBytes - 1`, otherwise write
the `numBytes`-byte little-endian encoding at `address`. -/
def write_bytes (buf : Buffer) (address : Nat) (value : Int) (numBytes : Nat) :
    Except Err Buffer :=
  if numBytes < 1 then .error .badWidth
  else if value < 0 ∨ (256 ^ numBytes - 1 : Int) < value then .error .outOfRange
  else .ok (storeBytes buf address value.toNat numBytes)

/-- Function `write_string` from `src/main.py`: fail if `value` is longer than
`length`; otherwise right-pad with spaces to exactly `length` characters
(`value.ljust(length)`), then encode as ASCII — raising if any character
is not ASCII — and write the resulting bytes at `address`. -/
def write_string (buf : Buffer) (address : Nat) (value : List Nat) (length : Nat) :
    Except Err Buffer :=
  if length < value.length then .error .tooLong
  else if (value ++ List.replicate (length - value.length) 32).any (fun c => 128 ≤ c) then
    .error .notAscii
  else .ok (storeList buf address (value ++ List.replicate (length - value.length) 32))

/-!
## The validation gate (`validate_save_file`)

`validate_save_file` in `src/main.py` inspects a candidate path through the
filesystem.  The filesystem facts it consults are gathered in an `FS`
record: whether the path exists, is a regular file and is readable, the
file's contents, its base name (as a list of byte values) and whether the
containing directory is writable.  The check for an `IOError` while reading
the signature is not modelled (reads from the contents record always
succeed), and the path interpolated into the Python error messages is
dropped, keeping each message's constant text.
-/

/-- The filesystem facts about one candidate path that
`validate_save_file` consults. -/
structure FS where
  pathExists : Bool
  isFile : Bool
  readable : Bool
  contents : Buffer
  baseName : List Nat
  dirWritable : Bool

/-- Modelled from the spec: `SENTINEL_SIGNATURE` lives in the absent
`sw_constants.py`; per the docstring of `validate_save_file` ("File has
"Sentinel" signature at 0x3181") it is the ASCII bytes of `"Sentinel"`. -/
def SENTINEL_SIGNATURE : List Nat := [83, 101, 110, 116, 105, 110, 101, 108]

/-- Modelled from the spec: the signature offset `0x3181` from the absent
`sw_constants.py`, fixed by the docstring of `validate_save_file`. -/
def SENTINEL_SIGNATURE_ADDR : Nat := 0x3181

/-- Modelled from the spec: `MAX_SAVE_FILE_SIZE` from the absent
`sw_constants.py`; the comments in `validate_save_file` and §4.4 of the
spec fix the upper bound at 16 KB. -/
def MAX_SAVE_FILE_SIZE : Nat := 16384

/-- The lower size bound, written literally as `1024` in
`validate_save_file`. -/
def MIN_SAVE_FILE_SIZE : Nat := 1024

/-- Reading via `f.seek(addr)` followed by `f.read(n)`: the bytes from `addr` up to
`addr + n`, truncated at the end of the file. -/
def readAvail (buf : Buffer) (addr : Nat) (n : Nat) : List Nat :=
  (List.range n).filterMap fun j =>
    if addr + j < buf.size then some (buf.byteAt (addr + j)) else none

/-- ASCII lower-casing of one byte, as `str.lower()` acts on the
filename's characters. -/
def lowerByte (b : Nat) : Nat :=
  if 65 ≤ b ∧ b ≤ 90 then b + 32 else b

/-- The regular-expression test `re.match(r'^game[a-z]\.fm$', filename)`
applied to the lower-cased base name: exactly the characters `g a m e`,
one letter `a`–`z`, then `. f m`. -/
def matchesSaveName (name : List Nat) : Bool :=
  match name.map lowerByte with
  | [103, 97, 109, 101, c, 46, 102, 109] => decide (97 ≤ c ∧ c ≤ 122)
  | _ => false

/-- Failure reason of the existence check. -/
def reasonNotFound : String := "File not found"

/-- Failure reason of the regular-file check. -/
def reasonNotFile : String := "Path is not a file"

/-- Failure reason of the readability check. -/
def reasonNotReadable : String := "File is not readable"

/-- Failure reason of the maximum-size check. -/
def reasonTooLarge : String := "File is too large. Expected ~12KB, max 16KB."

/-- Failure reason of the minimum-size check. -/
def reasonTooSmall : String := "File is too small. Likely not a valid save file."

/-- Failure reason of the filename-pattern check. -/
def reasonBadName : String := "Filename must match pattern gameX.fm where X is A-Z"

/-- Failure reason of the signature check. -/
def reasonBadSignature : String :=
  "File does not appear to be a valid Sentinel Worlds save file (signature mismatch)"

/-- Failure reason of the directory-writability check. -/
def reasonDirNotWritable : String := "Directory is not writable"

/-- Function `validate_save_file` from `src/main.py`: the ordered, short-circuiting
checks deciding whether a candidate path is a legitimate save file,
returning `(is_valid, error_message)`. -/
def validate_save_file (fs : FS) : Bool × String :=
  if fs.pathExists = false then (false, reasonNotFound)
  else if fs.isFile = false then (false, reasonNotFile)
  else if fs.readable = false then (false, reasonNotReadable)
  else if MAX_SAVE_FILE_SIZE < fs.contents.size then (false, reasonTooLarge)
  else if fs.contents.size < MIN_SAVE_FILE_SIZE then (false, reasonTooSmall)
  else if matchesSaveName fs.baseName = false then (false, reasonBadName)
  else if readAvail fs.contents SENTINEL_SIGNATURE_ADDR SENTINEL_SIGNATURE.length
      ≠ SENTINEL_SIGNATURE then (false, reasonBadSignature)
  else if fs.dirWritable = false then (false, reasonDirNotWritable)
  else (true, "")

/-- The gate's checks in the spec's order, each paired with its failure
reason: path exists and is a regular file, readable, size within bounds,
filename pattern, signature, directory writable.  The first and third of
the spec's six checks each contribute two tests (exists / regular file,
upper / lower size bound). -/
def gateChecks (fs : FS) : List (Bool × String) :=
  [(fs.pathExists, reasonNotFound),
   (fs.isFile, reasonNotFile),
   (fs.readable, reasonNotReadable),
   (decide (fs.contents.size ≤ MAX_SAVE_FILE_SIZE), reasonTooLarge),
   (decide (MIN_SAVE_FILE_SIZE ≤ fs.contents.size), reasonTooSmall),
   (matchesSaveName fs.baseName, reasonBadName),
   (decide (readAvail fs.contents SENTINEL_SIGNATURE_ADDR SENTINEL_SIGNATURE.length
      = SENTINEL_SIGNATURE), reasonBadSignature),
   (fs.dirWritable, reasonDirNotWritable)]

/-- Short-circuiting evaluation of an ordered check list, following the
spec's words: return the first failing check's reason, or valid with an
empty reason when every check passes. -/
def firstFailure : List (Bool × String) → Bool × String
  | [] => (true, "")
  | (ok, reason) :: rest => if ok then firstFailure rest else (false, reason)

/-!
## The item catalog (`src/inventory_constants.py`)

The item-code constants themselves live in the absent `sw_constants.py`;
their numeric values are modelled from the per-entry comments in
`src/inventory_constants.py` (e.g. `MYSTERIOUS_ARMOR,  # 0x04`), which give
every code used below.  The display names are the results of
`format_item_name` applied to the constant names, with the special case
`EMPTY_SLOT ↦ "Empty Slot"`.
-/

/-- Modelled from the spec: the reserved empty-slot sentinel code
`EMPTY_SLOT` from the absent `sw_constants.py`, `0xFF` per the comment in
`VALID_INVENTORY`. -/
def EMPTY_SLOT : Nat := 0xFF

/-- Dictionary `ITEM_NAMES` from `src/inventory_constants.py`: code to
display name, `none` for a code absent from the catalog (a raw `[]` lookup
on an absent code raises `KeyError`). -/
def ITEM_NAMES (code : Nat) : Option String :=
  match code with
  | 0xFF => some "Empty Slot"
  | 0x00 => some "Burbulator"
  | 0x01 => some "Ea Passcard"
  | 0x02 => some "Trinoculars"
  | 0x03 => some "Arisian Lens"
  | 0x05 => some "Energy Ball"
  | 0x07 => some "Book"
  | 0x39 => some "Holophones"
  | 0x3A => some "Vax Grapher"
  | 0x3B => some "Antique Yoyo"
  | 0x3C => some "Cryoscope"
  | 0x3D => some "Cyberdisk"
  | 0x3E => some "Szart Needle"
  | 0x3F => some "Knarlybar"
  | 0x20 => some "Tesselator"
  | 0x21 => some "Nanobot"
  | 0x22 => some "Mark V Teng"
  | 0x23 => some "Vadroxon"
  | 0x08 => some "Hands"
  | 0x1C => some "Claws"
  | 0x1D => some "Teeth"
  | 0x1E => some "Thrasher"
  | 0x1F => some "Acid Breath"
  | 0x09 => some "Powerfist"
  | 0x0A => some "Sonic Mace"
  | 0x0B => some "Gyro Pike"
  | 0x0C => some "Neuron Flail"
  | 0x0D => some "Dagger"
  | 0x0E => some "Cryo Cutlas"
  | 0x0F => some "Power Axe"
  | 0x10 => some "Energy Blade"
  | 0x11 => some "Edge Spinner"
  | 0x12 => some "Auto Pistol"
  | 0x13 => some "Shotgun"
  | 0x14 => some "Hyperuzi"
  | 0x15 => some "Ak 4700"
  | 0x16 => some "Gauss Rifle"
  | 0x17 => some "Thermocaster"
  | 0x18 => some "Hand Laser"
  | 0x19 => some "Lr Laser"
  | 0x1A => some "Plasma Gun"
  | 0x1B => some "Neutron Gun"
  | 0x37 => some "Nerf Cannon"
  | 0x04 => some "Mysterious Armor"
  | 0x06 => some "Ancient Armor"
  | 0x24 => some "Uniform"
  | 0x25 => some "Flight Jacket"
  | 0x26 => some "Steel Mesh"
  | 0x27 => some "Flak Jacket"
  | 0x28 => some "Laser Reflec"
  | 0x29 => some "Combat Armor"
  | 0x2A => some "Thick Skin"
  | 0x2B => some "Rough Skin"
  | 0x2C => some "Thick Fur"
  | 0x2D => some "Carbon Armor"
  | 0x2E => some "Civilian Clothes"
  | 0x2F => some "Special"
  | 0x38 => some "Kevlar Suit"
  | 0x30 => some "Auto Clip"
  | 0x31 => some "Shotgun Pack"
  | 0x32 => some "Hyperuzi Mag"
  | 0x33 => some "Gauss Rifle Mag"
  | 0x34 => some "Ak 4700 Mag"
  | 0x35 => some "Therm Pak"
  | 0x36 => some "Crysprism"
  | _ => none

/-- Set `VALID_ARMOR` from `src/inventory_constants.py`. -/
def VALID_ARMOR : List Nat :=
  [0x04, 0x06, 0x24, 0x25, 0x26, 0x27, 0x28, 0x29, 0x2A, 0x2B, 0x2C, 0x2D,
   0x2E, 0x2F, 0x38]

/-- Set `VALID_WEAPONS` from `src/inventory_constants.py`. -/
def VALID_WEAPONS : List Nat :=
  [0x08, 0x09, 0x0A, 0x0B, 0x0C, 0x0D, 0x0E, 0x0F, 0x10, 0x11, 0x12, 0x13,
   0x14, 0x15, 0x16, 0x17, 0x18, 0x19, 0x1A, 0x1B, 0x1C, 0x1D, 0x1E, 0x1F,
   0x37]

/-- Set `VALID_AMMO` from `src/inventory_constants.py`. -/
def VALID_AMMO : List Nat := [0x30, 0x31, 0x32, 0x33, 0x34, 0x35, 0x36]

/-- Set `VALID_INVENTORY` from `src/inventory_constants.py`: the general
inventory items (with the empty-slot sentinel) together with
`VALID_AMMO`, mirroring the `.union(VALID_AMMO)` in the source. -/
def VALID_INVENTORY : List Nat :=
  [0xFF, 0x00, 0x01, 0x02, 0x03, 0x05, 0x07, 0x39, 0x3A, 0x3B, 0x3C, 0x3D,
   0x3E, 0x3F, 0x20, 0x21, 0x22, 0x23] ++ VALID_AMMO

/-- Python's `hex(n)` for a non-negative `n`: `"0x"` followed by the
lower-case hexadecimal digits. -/
def hexRepr (n : Nat) : String :=
  "0x" ++ String.mk (Nat.toDigits 16 n)

/-- One iteration of `get_item_code` from `src/main.py`, on one candidate
entry: empty input keeps the current item (`none`); a code in
`valid_items` is accepted; any other code is rejected (the interactive
loop re-prompts, so no value is produced). -/
def get_item_code (validItems : List Nat) (entry : Option Nat) : Option Nat :=
  match entry with
  | none => none
  | some code => if code ∈ validItems then some code else none

/-- The equipment block of one crew member, as held in
`save_game_data['crew'][n]['equipment']`. -/
structure Equipment where
  armor : Nat
  weapon : Nat
  onhand_weapons : List Nat
  inventory : List Nat
deriving DecidableEq

/-- The armor-editing step of `edit_equipment` from `src/main.py`: the
candidate is validated against `VALID_ARMOR`; acceptance replaces the
equipped armor, rejection (or empty input) leaves the model untouched. -/
def editArmor (e : Equipment) (entry : Option Nat) : Equipment :=
  match get_item_code VALID_ARMOR entry with
  | some code => { e with armor := code }
  | none => e

/-- The equipped-weapon-editing step of `edit_equipment`, validated
against `VALID_WEAPONS`. -/
def editWeapon (e : Equipment) (entry : Option Nat) : Equipment :=
  match get_item_code VALID_WEAPONS entry with
  | some code => { e with weapon := code }
  | none => e

/-- The on-hand-weapon-editing step of `edit_equipment` for slot `i`,
validated against `VALID_WEAPONS.union({EMPTY_SLOT})`. -/
def editOnhand (e : Equipment) (i : Nat) (entry : Option Nat) : Equipment :=
  match get_item_code (VALID_WEAPONS ++ [EMPTY_SLOT]) entry with
  | some code => { e with onhand_weapons := e.onhand_weapons.set i code }
  | none => e

/-- The inventory-editing step of `edit_equipment` for slot `i`,
validated against `VALID_INVENTORY`. -/
def editInventory (e : Equipment) (i : Nat) (entry : Option Nat) : Equipment :=
  match get_item_code VALID_INVENTORY entry with
  | some code => { e with inventory := e.inventory.set i code }
  | none => e

/-- Function `display_equipment` from `src/main.py`: the lines printed for
one crew member's equipment.  Every item name is obtained by the raw
dictionary lookup `ITEM_NAMES[...]`, so the whole display fails (`none`,
modelling the `KeyError`) as soon as any equipped code is absent from the
catalog. -/
def display_equipment (e : Equipment) : Option (List String) :=
  (ITEM_NAMES e.armor).bind fun armorName =>
  (ITEM_NAMES e.weapon).bind fun weaponName =>
  (e.onhand_weapons.mapM ITEM_NAMES).bind fun onhandNames =>
  (e.inventory.mapM ITEM_NAMES).bind fun invNames =>
  some (("Equipped Armor: [" ++ hexRepr e.armor ++ "] " ++ armorName) ::
        ("Equipped Weapon: [" ++ hexRepr e.weapon ++ "] " ++ weaponName) ::
        (onhandNames ++ invNames))

/-- The item-name lookup used by `SentinelWorldsEditor.show_equipment_editor`
in `src/gui.py` (and by `tests/test_inspector.py`):
`ITEM_NAMES.get(code, f"Unknown {hex(code)}")`, synthesizing an
"Unknown" placeholder instead of failing on an undocumented code. -/
def guiItemName (code : Nat) : String :=
  (ITEM_NAMES code).getD ("Unknown " ++ hexRepr code)

/-!
## The address table and the decode/encode orchestration

The per-field addresses (`PARTY_CASH_ADDR`, `CREW1_NAME_ADDR`, …) live in
the absent `sw_constants.py`, so the address table is carried as explicit
parameters: a `CrewAddrs` record per crew member — exactly the fields
`get_crew_addresses` collects for each `CREW{n}_` constant group — and a
`Layout` bundling the party and ship addresses with the five crew
records.  `load_save_game` and `save_game` traverse the fields in the
exact order of the Python source (the per-crew dictionaries iterate in
insertion order).
-/

/-- The address group `get_crew_addresses` builds for one crew member from
the `CREW{n}_…` constants of the absent `sw_constants.py`. -/
structure CrewAddrs where
  name_addr : Nat
  name_length : Nat
  rank : Nat
  hp : Nat
  strength : Nat
  stamina : Nat
  dexterity : Nat
  comprehend : Nat
  charisma : Nat
  contact : Nat
  edged : Nat
  projectile : Nat
  blaster : Nat
  tactics : Nat
  recon : Nat
  gunnery : Nat
  atv_repair : Nat
  mining : Nat
  athletics : Nat
  observation : Nat
  bribery : Nat
  armor : Nat
  weapon : Nat
  onhand_weapons_start : Nat
  inventory_start : Nat

/-- Modelled from the spec: the full address table of the absent
`sw_constants.py` — the party/ship field addresses, the cash width and the
five crew address groups. -/
structure Layout where
  party_cash_addr : Nat
  party_cash_length : Nat
  party_light_energy_addr : Nat
  ship_move_addr : Nat
  ship_target_addr : Nat
  ship_engine_addr : Nat
  ship_laser_addr : Nat
  crew1 : CrewAddrs
  crew2 : CrewAddrs
  crew3 : CrewAddrs
  crew4 : CrewAddrs
  crew5 : CrewAddrs

/-- The `characteristics` sub-dictionary of one crew member's slot of
`save_game_data`. -/
structure Characteristics where
  strength : Nat
  stamina : Nat
  dexterity : Nat
  comprehend : Nat
  charisma : Nat

/-- The `abilities` sub-dictionary of one crew member's slot of
`save_game_data`. -/
structure Abilities where
  contact : Nat
  edged : Nat
  projectile : Nat
  blaster : Nat
  tactics : Nat
  recon : Nat
  gunnery : Nat
  atv_repair : Nat
  mining : Nat
  athletics : Nat
  observation : Nat
  bribery : Nat

/-- One crew member's slot of `save_game_data`, as populated by
`load_save_game`: the nested dictionaries become nested records. -/
structure CrewData where
  name : List Nat
  rank : Nat
  hp : Nat
  characteristics : Characteristics
  abilities : Abilities
  equipment : Equipment

/-- The decoded in-memory save (`save_game_data`): the party and ship
values and the five crew blocks. -/
structure SaveModel where
  cash : Nat
  light_energy : Nat
  move : Nat
  target : Nat
  engine : Nat
  laser : Nat
  crew1 : CrewData
  crew2 : CrewData
  crew3 : CrewData
  crew4 : CrewData
  crew5 : CrewData

/-- The characteristics part of `load_save_game`'s per-crew loop, reading
the five one-byte stats in the dictionary's insertion order. -/
def load_characteristics (buf : Buffer) (A : CrewAddrs) : Option Characteristics :=
  (read_bytes buf A.strength 1).bind fun strengthV =>
  (read_bytes buf A.stamina 1).bind fun staminaV =>
  (read_bytes buf A.dexterity 1).bind fun dexterityV =>
  (read_bytes buf A.comprehend 1).bind fun comprehendV =>
  (read_bytes buf A.charisma 1).bind fun charismaV =>
  some { strength := strengthV, stamina := staminaV, dexterity := dexterityV,
         comprehend := comprehendV, charisma := charismaV }

/-- The abilities part of `load_save_game`'s per-crew loop, reading the
twelve one-byte stats in the dictionary's insertion order. -/
def load_abilities (buf : Buffer) (A : CrewAddrs) : Option Abilities :=
  (read_bytes buf A.contact 1).bind fun contactV =>
  (read_bytes buf A.edged 1).bind fun edgedV =>
  (read_bytes buf A.projectile 1).bind fun projectileV =>
  (read_bytes buf A.blaster 1).bind fun blasterV =>
  (read_bytes buf A.tactics 1).bind fun tacticsV =>
  (read_bytes buf A.recon 1).bind fun reconV =>
  (read_bytes buf A.gunnery 1).bind fun gunneryV =>
  (read_bytes buf A.atv_repair 1).bind fun atvRepairV =>
  (read_bytes buf A.mining 1).bind fun miningV =>
  (read_bytes buf A.athletics 1).bind fun athleticsV =>
  (read_bytes buf A.observation 1).bind fun observationV =>
  (read_bytes buf A.bribery 1).bind fun briberyV =>
  some { contact := contactV, edged := edgedV, projectile := projectileV,
         blaster := blasterV, tactics := tacticsV, recon := reconV,
         gunnery := gunneryV, atv_repair := atvRepairV, mining := miningV,
         athletics := athleticsV, observation := observationV,
         bribery := briberyV }

/-- The three-iteration on-hand weapons loop of `load_save_game`. -/
def load_onhand (buf : Buffer) (A : CrewAddrs) : Option (List Nat) :=
  (read_bytes buf (A.onhand_weapons_start + 0) 1).bind fun onhand0 =>
  (read_bytes buf (A.onhand_weapons_start + 1) 1).bind fun onhand1 =>
  (read_bytes buf (A.onhand_weapons_start + 2) 1).bind fun onhand2 =>
  some [onhand0, onhand1, onhand2]

/-- The eight-iteration inventory loop of `load_save_game`. -/
def load_inventory (buf : Buffer) (A : CrewAddrs) : Option (List Nat) :=
  (read_bytes buf (A.inventory_start + 0) 1).bind fun inv0 =>
  (read_bytes buf (A.inventory_start + 1) 1).bind fun inv1 =>
  (read_bytes buf (A.inventory_start + 2) 1).bind fun inv2 =>
  (read_bytes buf (A.inventory_start + 3) 1).bind fun inv3 =>
  (read_bytes buf (A.inventory_start + 4) 1).bind fun inv4 =>
  (read_bytes buf (A.inventory_start + 5) 1).bind fun inv5 =>
  (read_bytes buf (A.inventory_start + 6) 1).bind fun inv6 =>
  (read_bytes buf (A.inventory_start + 7) 1).bind fun inv7 =>
  some [inv0, inv1, inv2, inv3, inv4, inv5, inv6, inv7]

/-- The equipment part of `load_save_game`'s per-crew loop: armor, weapon,
the three on-hand weapon codes and the eight inventory codes. -/
def load_equipment (buf : Buffer) (A : CrewAddrs) : Option Equipment :=
  (read_bytes buf A.armor 1).bind fun armorV =>
  (read_bytes buf A.weapon 1).bind fun weaponV =>
  (load_onhand buf A).bind fun onhandV =>
  (load_inventory buf A).bind fun invV =>
  some { armor := armorV, weapon := weaponV, onhand_weapons := onhandV,
         inventory := invV }

/-- The per-crew part of `load_save_game`: name, rank, hp, then the
characteristics, abilities and equipment sub-dictionaries, read in source
order. -/
def load_crew (buf : Buffer) (A : CrewAddrs) : Option CrewData :=
  (read_string buf A.name_addr A.name_length).bind fun nameV =>
  (read_bytes buf A.rank 1).bind fun rankV =>
  (read_bytes buf A.hp 1).bind fun hpV =>
  (load_characteristics buf A).bind fun charsV =>
  (load_abilities buf A).bind fun abilV =>
  (load_equipment buf A).bind fun equipV =>
  some { name := nameV, rank := rankV, hp := hpV, characteristics := charsV,
         abilities := abilV, equipment := equipV }

/-- Function `load_save_game` from `src/main.py`: decode the whole save —
party values, ship software, then the five crew blocks.  Any failing read
fails the whole load (`none`), so no partial model is produced. -/
def load_save_game (L : Layout) (buf : Buffer) : Option SaveModel :=
  (read_bytes buf L.party_cash_addr L.party_cash_length).bind fun cashV =>
  (read_bytes buf L.party_light_energy_addr 1).bind fun lightV =>
  (read_bytes buf L.ship_move_addr 1).bind fun moveV =>
  (read_bytes buf L.ship_target_addr 1).bind fun targetV =>
  (read_bytes buf L.ship_engine_addr 1).bind fun engineV =>
  (read_bytes buf L.ship_laser_addr 1).bind fun laserV =>
  (load_crew buf L.crew1).bind fun c1 =>
  (load_crew buf L.crew2).bind fun c2 =>
  (load_crew buf L.crew3).bind fun c3 =>
  (load_crew buf L.crew4).bind fun c4 =>
  (load_crew buf L.crew5).bind fun c5 =>
  some { cash := cashV, light_energy := lightV, move := moveV,
         target := targetV, engine := engineV, laser := laserV,
         crew1 := c1, crew2 := c2, crew3 := c3, crew4 := c4, crew5 := c5 }

/-- One field write performed by `save_game`: a numeric `write_bytes` or a
textual `write_string`. -/
inductive Op where
  | num (addr : Nat) (width : Nat) (value : Nat)
  | txt (addr : Nat) (len : Nat) (value : List Nat)

/-- Apply one field write to the file. -/
def applyOp (b : Buffer) : Op → Except Err Buffer
  | .num addr width value => write_bytes b addr (Int.ofNat value) width
  | .txt addr len value => write_string b addr value len

/-- Run the field writes in order against the file opened in `rb+` mode.
The first raising write aborts the remainder (the `except` clause of
`save_game` returns `False`), but every write already performed stays in
the file. -/
def runOps : List Op → Buffer → Bool × Buffer
  | [], b => (true, b)
  | op :: rest, b =>
    match applyOp b op with
    | .ok b2 => runOps rest b2
    | .error _ => (false, b)

/-- The characteristics writes of `save_game`'s per-crew loop, in the
dictionary's insertion order. -/
def chars_ops (A : CrewAddrs) (C : Characteristics) : List Op :=
  [.num A.strength 1 C.strength,
   .num A.stamina 1 C.stamina,
   .num A.dexterity 1 C.dexterity,
   .num A.comprehend 1 C.comprehend,
   .num A.charisma 1 C.charisma]

/-- The abilities writes of `save_game`'s per-crew loop, in the
dictionary's insertion order. -/
def abil_ops (A : CrewAddrs) (ab : Abilities) : List Op :=
  [.num A.contact 1 ab.contact,
   .num A.edged 1 ab.edged,
   .num A.projectile 1 ab.projectile,
   .num A.blaster 1 ab.blaster,
   .num A.tactics 1 ab.tactics,
   .num A.recon 1 ab.recon,
   .num A.gunnery 1 ab.gunnery,
   .num A.atv_repair 1 ab.atv_repair,
   .num A.mining 1 ab.mining,
   .num A.athletics 1 ab.athletics,
   .num A.observation 1 ab.observation,
   .num A.bribery 1 ab.bribery]

/-- The equipment writes of `save_game`'s per-crew loop: armor, weapon,
the three-iteration on-hand loop and the eight-iteration inventory
loop. -/
def equip_ops (A : CrewAddrs) (e : Equipment) : List Op :=
  [.num A.armor 1 e.armor,
   .num A.weapon 1 e.weapon,
   .num (A.onhand_weapons_start + 0) 1 (e.onhand_weapons.getD 0 0),
   .num (A.onhand_weapons_start + 1) 1 (e.onhand_weapons.getD 1 0),
   .num (A.onhand_weapons_start + 2) 1 (e.onhand_weapons.getD 2 0),
   .num (A.inventory_start + 0) 1 (e.inventory.getD 0 0),
   .num (A.inventory_start + 1) 1 (e.inventory.getD 1 0),
   .num (A.inventory_start + 2) 1 (e.inventory.getD 2 0),
   .num (A.inventory_start + 3) 1 (e.inventory.getD 3 0),
   .num (A.inventory_start + 4) 1 (e.inventory.getD 4 0),
   .num (A.inventory_start + 5) 1 (e.inventory.getD 5 0),
   .num (A.inventory_start + 6) 1 (e.inventory.getD 6 0),
   .num (A.inventory_start + 7) 1 (e.inventory.getD 7 0)]

/-- The writes `save_game` performs for one crew member, in source order:
name, rank, hp, then the characteristics, abilities and equipment
groups. -/
def crew_ops (A : CrewAddrs) (c : CrewData) : List Op :=
  [.txt A.name_addr A.name_length c.name,
   .num A.rank 1 c.rank,
   .num A.hp 1 c.hp]
  ++ chars_ops A c.characteristics
  ++ abil_ops A c.abilities
  ++ equip_ops A c.equipment

/-- The full ordered list of writes `save_game` performs: party values,
ship software, then the five crew blocks. -/
def save_ops (L : Layout) (m : SaveModel) : List Op :=
  [.num L.party_cash_addr L.party_cash_length m.cash,
   .num L.party_light_energy_addr 1 m.light_energy,
   .num L.ship_move_addr 1 m.move,
   .num L.ship_target_addr 1 m.target,
   .num L.ship_engine_addr 1 m.engine,
   .num L.ship_laser_addr 1 m.laser]
  ++ crew_ops L.crew1 m.crew1
  ++ crew_ops L.crew2 m.crew2
  ++ crew_ops L.crew3 m.crew3
  ++ crew_ops L.crew4 m.crew4
  ++ crew_ops L.crew5 m.crew5

/-- Function `save_game` from `src/main.py`: write every model value back
into the file in source order; a raising write makes the function return
`False`, leaving the writes already performed in the file. -/
def save_game (L : Layout) (m : SaveModel) (buf : Buffer) : Bool × Buffer :=
  runOps (save_ops L m) buf

/-!
## Auxiliary predicates and specification-side functions
-/

/-- Byte-for-byte agreement of two file images: same size, same byte at
every in-file address. -/
def BufEquiv (b buf : Buffer) : Prop :=
  b.size = buf.size ∧ ∀ i, i < buf.size → b.byteAt i = buf.byteAt i

/-- A field write restores `buf`: applied to any image agreeing with
`buf`, it succeeds and the result still agrees with `buf`. -/
def OpRestores (buf : Buffer) (op : Op) : Prop :=
  ∀ b, BufEquiv b buf → ∃ b2, applyOp b op = .ok b2 ∧ BufEquiv b2 buf

/-- The raw bytes of a `length`-byte field at `addr`. -/
def fieldBytes (buf : Buffer) (addr : Nat) (length : Nat) : List Nat :=
  (List.range length).map fun j => buf.byteAt (addr + j)

/-- A stored name field is exact for the codec: every byte is ASCII and
the field's trailing whitespace (the part `.rstrip()` removes after
decoding) consists of spaces only, so stripping and re-padding with
spaces reproduces the original bytes. -/
def NameFieldClean (buf : Buffer) (A : CrewAddrs) : Prop :=
  (∀ j, j < A.name_length → buf.byteAt (A.name_addr + j) < 128) ∧
  (∀ b ∈ (fieldBytes buf A.name_addr A.name_length).reverse.takeWhile pyWs, b = 32)

/-- Claim-side reading of the text decoder: decode `length` bytes as
ASCII with replacement and trim trailing space characters (0x20) only,
leaving any other trailing whitespace in place. -/
def readTextClaim (buf : Buffer) (address : Nat) (length : Nat) : Option (List Nat) :=
  if address + length ≤ buf.size then
    some ((((List.range length).map fun j =>
      decodeByte (buf.byteAt (address + j))).reverse.dropWhile (fun c => c == 32)).reverse)
  else none

/-!
## Concrete instances

Concrete layouts, buffers and filesystem states used to evaluate the
codec on explicit inputs.  The addresses in `exLayout` are modelled from
the spec (the real constants live in the absent `sw_constants.py`): a
compact non-overlapping arrangement with the documented widths — a
three-byte cash field, ten-byte name fields, and the per-crew blocks laid
out contiguously.
-/

/-- A crew address block at base `base`: name (10 bytes), rank, hp, the
five characteristics, the twelve abilities, armor, weapon, three on-hand
slots and eight inventory slots, at consecutive addresses. -/
def mkCrewAddrs (base : Nat) : CrewAddrs where
  name_addr := base
  name_length := 10
  rank := base + 10
  hp := base + 11
  strength := base + 12
  stamina := base + 13
  dexterity := base + 14
  comprehend := base + 15
  charisma := base + 16
  contact := base + 17
  edged := base + 18
  projectile := base + 19
  blaster := base + 20
  tactics := base + 21
  recon := base + 22
  gunnery := base + 23
  atv_repair := base + 24
  mining := base + 25
  athletics := base + 26
  observation := base + 27
  bribery := base + 28
  armor := base + 29
  weapon := base + 30
  onhand_weapons_start := base + 31
  inventory_start := base + 34

/-- Modelled from the spec: a concrete instance of the address table
(the real offsets live in the absent `sw_constants.py`). -/
def exLayout : Layout where
  party_cash_addr := 10
  party_cash_length := 3
  party_light_energy_addr := 13
  ship_move_addr := 14
  ship_target_addr := 15
  ship_engine_addr := 16
  ship_laser_addr := 17
  crew1 := mkCrewAddrs 100
  crew2 := mkCrewAddrs 160
  crew3 := mkCrewAddrs 220
  crew4 := mkCrewAddrs 280
  crew5 := mkCrewAddrs 340

/-- The signature byte at index `j` (the bytes of `"Sentinel"`). -/
def sigAt : Nat → Nat
  | 0 => 83
  | 1 => 101
  | 2 => 110
  | 3 => 116
  | 4 => 105
  | 5 => 110
  | 6 => 101
  | 7 => 108
  | _ => 0

/-- A 12681-byte save image whose first crew name field holds `"A"`, a
TAB character, then eight spaces — every byte ASCII, signature in place,
everything else zero. -/
def exBufTab : Buffer where
  size := 12681
  byteAt := fun i =>
    if 12673 ≤ i ∧ i < 12681 then sigAt (i - 12673)
    else if i = 100 then 65
    else if i = 101 then 9
    else if 102 ≤ i ∧ i < 110 then 32
    else 0

/-- The same save image with the first crew name field holding `"A"`
followed by nine spaces (a clean, space-padded name field).  The byte
function reduces modulo 256 so well-formedness is immediate. -/
def exBufClean : Buffer where
  size := 12681
  byteAt := fun i =>
    (if 12673 ≤ i ∧ i < 12681 then sigAt (i - 12673)
     else if i = 100 then 65
     else if 101 ≤ i ∧ i < 110 then 32
     else 0) % 256

/-- The byte codes of the file name `gamea.fm`. -/
def gameaName : List Nat := [103, 97, 109, 101, 97, 46, 102, 109]

/-- Filesystem state for `exBufTab` stored in a writable directory under
the name `gamea.fm`. -/
def exFsTab : FS where
  pathExists := true
  isFile := true
  readable := true
  contents := exBufTab
  baseName := gameaName
  dirWritable := true

/-- Filesystem state for `exBufClean` stored in a writable directory
under the name `gamea.fm`. -/
def exFsClean : FS where
  pathExists := true
  isFile := true
  readable := true
  contents := exBufClean
  baseName := gameaName
  dirWritable := true

/-- An all-zero crew block (ten-byte zero name, zero stats, zero
equipment). -/
def zeroCrew : CrewData where
  name := List.replicate 10 0
  rank := 0
  hp := 0
  characteristics :=
    { strength := 0, stamina := 0, dexterity := 0, comprehend := 0, charisma := 0 }
  abilities :=
    { contact := 0, edged := 0, projectile := 0, blaster := 0, tactics := 0,
      recon := 0, gunnery := 0, atv_repair := 0, mining := 0, athletics := 0,
      observation := 0, bribery := 0 }
  equipment :=
    { armor := 0, weapon := 0, onhand_weapons := [0, 0, 0],
      inventory := [0, 0, 0, 0, 0, 0, 0, 0] }

/-- The model decoded from either example buffer: all zeros except the
first crew member's name, which decodes to `"A"`. -/
def exModel : SaveModel where
  cash := 0
  light_energy := 0
  move := 0
  target := 0
  engine := 0
  laser := 0
  crew1 := { zeroCrew with name := [65] }
  crew2 := zeroCrew
  crew3 := zeroCrew
  crew4 := zeroCrew
  crew5 := zeroCrew

/-- A two-byte buffer holding `"A"` followed by a TAB character. -/
def exBufAB : Buffer where
  size := 2
  byteAt := fun i => if i = 0 then 65 else 9

/-- A sixteen-byte buffer whose every byte is `7`. -/
def exBuf16 : Buffer where
  size := 16
  byteAt := fun _ => 7

/-- The byte codes of the file name `savegame.fm`. -/
def savegameName : List Nat :=
  [115, 97, 118, 101, 103, 97, 109, 101, 46, 102, 109]

/-- An existing, readable, regular file named `savegame.fm` holding 100
zero bytes, in a writable directory. -/
def exFsSavegameSmall : FS where
  pathExists := true
  isFile := true
  readable := true
  contents := { size := 100, byteAt := fun _ => 0 }
  baseName := savegameName
  dirWritable := true

/-- An existing, readable, regular file named `savegame.fm` holding 2000
zero bytes (a size inside the gate's bounds), in a writable
directory. -/
def exFsSavegameOk : FS where
  pathExists := true
  isFile := true
  readable := true
  contents := { size := 2000, byteAt := fun _ => 0 }
  baseName := savegameName
  dirWritable := true

/-- An equipment block whose armor code `0x40` is absent from the item
catalog (the other slots hold catalogued codes). -/
def exEquipUnknown : Equipment where
  armor := 0x40
  weapon := 0x08
  onhand_weapons := [0xFF, 0xFF, 0xFF]
  inventory := [0xFF, 0xFF, 0xFF, 0xFF, 0xFF, 0xFF, 0xFF, 0xFF]

/-- An equipment block holding catalogued codes in every slot. -/
def exEquip : Equipment where
  armor := 0x04
  weapon := 0x08
  onhand_weapons := [0xFF, 0xFF, 0xFF]
  inventory := [0xFF, 0xFF, 0xFF, 0xFF, 0xFF, 0xFF, 0xFF, 0xFF]

/-- The example model with a cash value that fits the three-byte field
and a light-energy value out of byte range. -/
def exModelBadLight : SaveModel :=
  { exModel with cash := 999999, light_energy := 300 }

set_option maxRecDepth 16384

/-!
## Little-endian arithmetic
-/

theorem leValue_lt (f : Nat → Nat) :
    ∀ (n a : Nat), (∀ j, j < n → f (a + j) < 256) → leValue f a n < 256 ^ n := by
  intro n
  induction n with
  | zero => intro a _; simp [leValue]
  | succ n ih =>
    intro a h
    have h0 : f a < 256 := by simpa using h 0 (Nat.succ_pos n)
    have hr : leValue f (a + 1) n < 256 ^ n := by
      apply ih
      intro j hj
      have := h (j + 1) (by omega)
      simpa [Nat.add_assoc, Nat.add_comm 1 j] using this
    calc leValue f a (n + 1) = f a + 256 * leValue f (a + 1) n := rfl
      _ < 256 + 256 * leValue f (a + 1) n := by omega
      _ = 256 * (leValue f (a + 1) n + 1) := by ring
      _ ≤ 256 * 256 ^ n := Nat.mul_le_mul_left _ hr
      _ = 256 ^ (n + 1) := by ring

theorem leValue_digit (f : Nat → Nat) :
    ∀ (n a j : Nat), j < n → (∀ k, k < n → f (a + k) < 256) →
      leValue f a n / 256 ^ j % 256 = f (a + j) := by
  intro n
  induction n with
  | zero => intro a j hj _; exact absurd hj (Nat.not_lt_zero j)
  | succ n ih =>
    intro a j hj h
    have h0 : f a < 256 := by simpa using h 0 (Nat.succ_pos n)
    cases j with
    | zero =>
      show leValue f a (n + 1) / 256 ^ 0 % 256 = f (a + 0)
      rw [pow_zero, Nat.div_one]
      show (f a + 256 * leValue f (a + 1) n) % 256 = f (a + 0)
      rw [Nat.mul_comm, Nat.add_mul_mod_self_right, Nat.mod_eq_of_lt h0]
      simp
    | succ j =>
      have hstep : leValue f a (n + 1) / 256 ^ (j + 1) = leValue f (a + 1) n / 256 ^ j := by
        have h2 : (256 : Nat) ^ (j + 1) = 256 * 256 ^ j := by ring
        rw [h2, ← Nat.div_div_eq_div_mul]
        congr 1
        show (f a + 256 * leValue f (a + 1) n) / 256 = leValue f (a + 1) n
        rw [Nat.add_mul_div_left _ _ (by norm_num : (0:Nat) < 256),
          Nat.div_eq_of_lt h0, Nat.zero_add]
      rw [hstep]
      have := ih (a + 1) j (by omega) (fun k hk => by
        have := h (k + 1) (by omega)
        simpa [Nat.add_assoc, Nat.add_comm 1 k] using this)
      rw [this]
      congr 1
      omega

/-!
## Algebra of `rstrip` and space padding
-/

theorem rstrip_split (l : List Nat) :
    l = rstripChars l ++ (l.reverse.takeWhile pyWs).reverse := by
  conv_lhs => rw [← List.reverse_reverse l,
    ← List.takeWhile_append_dropWhile pyWs l.reverse]
  rw [List.reverse_append]
  rfl

theorem rstrip_length_le (l : List Nat) : (rstripChars l).length ≤ l.length := by
  unfold rstripChars
  rw [List.length_reverse]
  simpa using (List.dropWhile_sublist pyWs (l := l.reverse)).length_le

theorem mem_rstrip (l : List Nat) (b : Nat) (h : b ∈ rstripChars l) : b ∈ l := by
  unfold rstripChars at h
  rw [List.mem_reverse] at h
  exact List.mem_reverse.mp ((List.dropWhile_sublist pyWs).mem h)

theorem rstrip_pad (l : List Nat)
    (h : ∀ b ∈ l.reverse.takeWhile pyWs, b = 32) :
    rstripChars l ++ List.replicate (l.length - (rstripChars l).length) 32 = l := by
  have hsplit := rstrip_split l
  have hrep : (l.reverse.takeWhile pyWs).reverse
      = List.replicate (l.reverse.takeWhile pyWs).length 32 := by
    have hmem : ∀ b ∈ (l.reverse.takeWhile pyWs).reverse, b = 32 :=
      fun b hb => h b (List.mem_reverse.mp hb)
    simpa [List.length_reverse] using List.eq_replicate_of_mem hmem
  have hlen : l.length = (rstripChars l).length + (l.reverse.takeWhile pyWs).length := by
    conv_lhs => rw [hsplit]
    simp
  rw [hlen, Nat.add_sub_cancel_left, ← hrep]
  exact hsplit.symm

theorem rstrip_append_replicate (v : List Nat) (k : Nat) :
    rstripChars (v ++ List.replicate k 32) = rstripChars v := by
  unfold rstripChars
  rw [List.reverse_append, List.reverse_replicate]
  congr 1
  induction k with
  | zero => simp
  | succ k ih =>
    rw [List.replicate_succ, List.cons_append, List.dropWhile_cons]
    simp only [pyWs]
    simpa using ih

theorem decode_map_eq_self (l : List Nat) (h : ∀ b ∈ l, b < 128) :
    l.map decodeByte = l := by
  have hc : ∀ b ∈ l, decodeByte b = b := fun b hb => by
    simp [decodeByte, h b hb]
  calc l.map decodeByte = l.map id := List.map_congr_left hc
    _ = l := List.map_id l

theorem getD_map_range (g : Nat → Nat) (len k : Nat) (h : k < len) :
    ((List.range len).map g).getD k 0 = g k := by
  rw [List.getD_eq_getElem _ _ (by simpa using h)]
  simp [h]

/-!
## Frame and restore properties of the write primitives
-/

theorem write_bytes_ok (buf : Buffer) (a : Nat) (v : Int) (n : Nat)
    (hn : 1 ≤ n) (h0 : 0 ≤ v) (hv : v ≤ 256 ^ n - 1) :
    write_bytes buf a v n = .ok (storeBytes buf a v.toNat n) := by
  unfold write_bytes
  rw [if_neg (by omega), if_neg (by push_neg; exact ⟨h0, hv⟩)]

theorem storeBytes_size (buf : Buffer) (a v n : Nat) (h : a + n ≤ buf.size) :
    (storeBytes buf a v n).size = buf.size := by
  simp [storeBytes, Nat.max_eq_left h]

theorem storeBytes_byteAt_in (buf : Buffer) (a v n i : Nat)
    (h1 : a ≤ i) (h2 : i < a + n) :
    (storeBytes buf a v n).byteAt i = v / 256 ^ (i - a) % 256 := by
  simp [storeBytes, h1, h2]

theorem storeBytes_byteAt_out (buf : Buffer) (a v n i : Nat)
    (h : i < a ∨ a + n ≤ i) (hi : i < buf.size) :
    (storeBytes buf a v n).byteAt i = buf.byteAt i := by
  show (if a ≤ i ∧ i < a + n then _ else if i < buf.size then _ else _) = _
  rw [if_neg (by omega), if_pos hi]

theorem storeList_size (buf : Buffer) (a : Nat) (l : List Nat)
    (h : a + l.length ≤ buf.size) : (storeList buf a l).size = buf.size := by
  simp [storeList, Nat.max_eq_left h]

theorem storeList_byteAt_in (buf : Buffer) (a : Nat) (l : List Nat) (i : Nat)
    (h1 : a ≤ i) (h2 : i < a + l.length) :
    (storeList buf a l).byteAt i = l.getD (i - a) 0 := by
  simp [storeList, h1, h2]

theorem storeList_byteAt_out (buf : Buffer) (a : Nat) (l : List Nat) (i : Nat)
    (h : i < a ∨ a + l.length ≤ i) (hi : i < buf.size) :
    (storeList buf a l).byteAt i = buf.byteAt i := by
  show (if a ≤ i ∧ i < a + l.length then _ else if i < buf.size then _ else _) = _
  rw [if_neg (by omega), if_pos hi]

theorem opRestores_num (buf : Buffer) (hWF : buf.WF) (a n v : Nat)
    (hread : read_bytes buf a n = some v) : OpRestores buf (.num a n v) := by
  unfold read_bytes at hread
  split at hread
  case isFalse => exact absurd hread (by simp)
  case isTrue hc =>
    obtain ⟨hn, hbound⟩ := hc
    have hv : v = leValue buf.byteAt a n := (Option.some.inj hread).symm
    intro b hb
    obtain ⟨hsz, hagree⟩ := hb
    have hlt : v < 256 ^ n := by
      rw [hv]
      exact leValue_lt buf.byteAt n a (fun j hj => hWF (a + j) (by omega))
    have hle : (Int.ofNat v) ≤ 256 ^ n - 1 := by
      rw [Int.ofNat_eq_natCast]
      have hcast : ((v : Nat) : Int) < (256 : Int) ^ n := by exact_mod_cast hlt
      linarith
    have hok := write_bytes_ok b a (Int.ofNat v) n hn (Int.ofNat_nonneg v) hle
    refine ⟨storeBytes b a v n, ?_, ?_, ?_⟩
    · show write_bytes b a (Int.ofNat v) n = _
      simpa using hok
    · rw [storeBytes_size b a v n (by omega), hsz]
    · intro i hi
      by_cases hin : a ≤ i ∧ i < a + n
      · rw [storeBytes_byteAt_in b a v n i hin.1 hin.2, hv,
          leValue_digit buf.byteAt n a (i - a) (by omega)
            (fun k hk => hWF (a + k) (by omega))]
        congr 1
        omega
      · rw [storeBytes_byteAt_out b a v n i (by omega) (by omega)]
        exact hagree i hi

theorem opRestores_txt (buf : Buffer) (a len : Nat) (s : List Nat)
    (hread : read_string buf a len = some s)
    (hclean1 : ∀ j, j < len → buf.byteAt (a + j) < 128)
    (hclean2 : ∀ b ∈ (fieldBytes buf a len).reverse.takeWhile pyWs, b = 32) :
    OpRestores buf (.txt a len s) := by
  unfold read_string at hread
  split at hread
  case isFalse => exact absurd hread (by simp)
  case isTrue hbound =>
    have hrawlen : (fieldBytes buf a len).length = len := by
      simp [fieldBytes]
    have hrawmem : ∀ b ∈ fieldBytes buf a len, b < 128 := by
      intro b hb
      obtain ⟨j, hj, rfl⟩ := by simpa [fieldBytes] using hb
      exact hclean1 j hj
    have hdec : ((List.range len).map fun j => decodeByte (buf.byteAt (a + j)))
        = fieldBytes buf a len := by
      have : ((List.range len).map fun j => decodeByte (buf.byteAt (a + j)))
          = (fieldBytes buf a len).map decodeByte := by
        simp [fieldBytes, List.map_map, Function.comp]
      rw [this, decode_map_eq_self _ hrawmem]
    have hs : s = rstripChars (fieldBytes buf a len) := by
      have := (Option.some.inj hread).symm
      rwa [hdec] at this
    have hslen : s.length ≤ len := by
      rw [hs]
      calc (rstripChars (fieldBytes buf a len)).length
          ≤ (fieldBytes buf a len).length := rstrip_length_le _
        _ = len := hrawlen
    have hpad : s ++ List.replicate (len - s.length) 32 = fieldBytes buf a len := by
      rw [hs]
      have := rstrip_pad (fieldBytes buf a len) hclean2
      rwa [hrawlen] at this
    intro b hb
    obtain ⟨hsz, hagree⟩ := hb
    have hascii : (s ++ List.replicate (len - s.length) 32).any (fun c => 128 ≤ c) = false := by
      rw [hpad]
      simp only [List.any_eq_false, decide_eq_true_eq]
      intro c hc
      have := hrawmem c hc
      omega
    have hok : write_string b a s len = .ok (storeList b a (fieldBytes buf a len)) := by
      unfold write_string
      rw [if_neg (by omega), if_neg (by rw [hascii]; simp), hpad]
    refine ⟨storeList b a (fieldBytes buf a len), hok, ?_, ?_⟩
    · rw [storeList_size b a _ (by omega), hsz]
    · intro i hi
      by_cases hin : a ≤ i ∧ i < a + len
      · rw [storeList_byteAt_in b a _ i hin.1 (by omega), fieldBytes,
          getD_map_range _ len (i - a) (by omega)]
        congr 1
        omega
      · rw [storeList_byteAt_out b a _ i (by omega) (by omega)]
        exact hagree i hi

theorem chars_ops_restore (buf : Buffer) (hWF : buf.WF) (A : CrewAddrs)
    (C : Characteristics) (h : load_characteristics buf A = some C) :
    ∀ op ∈ chars_ops A C, OpRestores buf op := by
  simp only [load_characteristics, Option.bind_eq_some, Option.some.injEq] at h
  obtain ⟨s1, h1, s2, h2, s3, h3, s4, h4, s5, h5, heq⟩ := h
  subst heq
  intro op hop
  simp only [chars_ops, List.mem_cons, List.not_mem_nil, or_false] at hop
  rcases hop with rfl | rfl | rfl | rfl | rfl
  · exact opRestores_num buf hWF _ _ _ h1
  · exact opRestores_num buf hWF _ _ _ h2
  · exact opRestores_num buf hWF _ _ _ h3
  · exact opRestores_num buf hWF _ _ _ h4
  · exact opRestores_num buf hWF _ _ _ h5

theorem abil_ops_restore (buf : Buffer) (hWF : buf.WF) (A : CrewAddrs)
    (ab : Abilities) (h : load_abilities buf A = some ab) :
    ∀ op ∈ abil_ops A ab, OpRestores buf op := by
  simp only [load_abilities, Option.bind_eq_some, Option.some.injEq] at h
  obtain ⟨s1, h1, s2, h2, s3, h3, s4, h4, s5, h5, s6, h6, s7, h7, s8, h8,
    s9, h9, s10, h10, s11, h11, s12, h12, heq⟩ := h
  subst heq
  intro op hop
  simp only [abil_ops, List.mem_cons, List.not_mem_nil, or_false] at hop
  rcases hop with rfl | rfl | rfl | rfl | rfl | rfl | rfl | rfl | rfl | rfl | rfl | rfl
  · exact opRestores_num buf hWF _ _ _ h1
  · exact opRestores_num buf hWF _ _ _ h2
  · exact opRestores_num buf hWF _ _ _ h3
  · exact opRestores_num buf hWF _ _ _ h4
  · exact opRestores_num buf hWF _ _ _ h5
  · exact opRestores_num buf hWF _ _ _ h6
  · exact opRestores_num buf hWF _ _ _ h7
  · exact opRestores_num buf hWF _ _ _ h8
  · exact opRestores_num buf hWF _ _ _ h9
  · exact opRestores_num buf hWF _ _ _ h10
  · exact opRestores_num buf hWF _ _ _ h11
  · exact opRestores_num buf hWF _ _ _ h12

theorem equip_ops_restore (buf : Buffer) (hWF : buf.WF) (A : CrewAddrs)
    (e : Equipment) (h : load_equipment buf A = some e) :
    ∀ op ∈ equip_ops A e, OpRestores buf op := by
  simp only [load_equipment, load_onhand, load_inventory, Option.bind_eq_some,
    Option.some.injEq] at h
  obtain ⟨armorV, ha, weaponV, hw, onhandV,
    ⟨o0, ho0, o1, ho1, o2, ho2, heqO⟩, invV,
    ⟨i0, hi0, i1, hi1, i2, hi2, i3, hi3, i4, hi4, i5, hi5, i6, hi6, i7, hi7, heqI⟩,
    heq⟩ := h
  subst heqO
  subst heqI
  subst heq
  intro op hop
  simp only [equip_ops, List.mem_cons, List.not_mem_nil, or_false] at hop
  rcases hop with rfl | rfl | rfl | rfl | rfl | rfl | rfl | rfl | rfl | rfl | rfl | rfl | rfl
  · exact opRestores_num buf hWF _ _ _ ha
  · exact opRestores_num buf hWF _ _ _ hw
  · exact opRestores_num buf hWF _ _ _ ho0
  · exact opRestores_num buf hWF _ _ _ ho1
  · exact opRestores_num buf hWF _ _ _ ho2
  · exact opRestores_num buf hWF _ _ _ hi0
  · exact opRestores_num buf hWF _ _ _ hi1
  · exact opRestores_num buf hWF _ _ _ hi2
  · exact opRestores_num buf hWF _ _ _ hi3
  · exact opRestores_num buf hWF _ _ _ hi4
  · exact opRestores_num buf hWF _ _ _ hi5
  · exact opRestores_num buf hWF _ _ _ hi6
  · exact opRestores_num buf hWF _ _ _ hi7

theorem crew_ops_restore (buf : Buffer) (hWF : buf.WF) (A : CrewAddrs)
    (c : CrewData) (hload : load_crew buf A = some c)
    (hclean : NameFieldClean buf A) :
    ∀ op ∈ crew_ops A c, OpRestores buf op := by
  simp only [load_crew, Option.bind_eq_some, Option.some.injEq] at hload
  obtain ⟨nameV, hname, rankV, hrank, hpV, hhp, charsV, hchars, abilV, habil,
    equipV, hequip, heq⟩ := hload
  subst heq
  intro op hop
  simp only [crew_ops, List.mem_append, List.mem_cons, List.not_mem_nil,
    or_false] at hop
  rcases hop with (((rfl | rfl | rfl) | hc) | hab) | he
  · exact opRestores_txt buf _ _ _ hname hclean.1 hclean.2
  · exact opRestores_num buf hWF _ _ _ hrank
  · exact opRestores_num buf hWF _ _ _ hhp
  · exact chars_ops_restore buf hWF A _ hchars op hc
  · exact abil_ops_restore buf hWF A _ habil op hab
  · exact equip_ops_restore buf hWF A _ hequip op he

theorem runOps_restores (buf : Buffer) :
    ∀ ops : List Op, (∀ op ∈ ops, OpRestores buf op) →
      ∀ b, BufEquiv b buf →
        (runOps ops b).1 = true ∧ BufEquiv (runOps ops b).2 buf := by
  intro ops
  induction ops with
  | nil => exact fun _ b hb => ⟨rfl, hb⟩
  | cons op rest ih =>
    intro hall b hb
    obtain ⟨b2, hok, hb2⟩ := hall op (List.mem_cons_self op rest) b hb
    have : runOps (op :: rest) b = runOps rest b2 := by
      show (match applyOp b op with
            | .ok b2 => runOps rest b2
            | .error _ => (false, b)) = _
      rw [hok]
    rw [this]
    exact ih (fun o ho => hall o (List.mem_cons_of_mem _ ho)) b2 hb2

theorem save_after_load (L : Layout) (buf : Buffer) (m : SaveModel)
    (hWF : buf.WF)
    (hclean1 : NameFieldClean buf L.crew1)
    (hclean2 : NameFieldClean buf L.crew2)
    (hclean3 : NameFieldClean buf L.crew3)
    (hclean4 : NameFieldClean buf L.crew4)
    (hclean5 : NameFieldClean buf L.crew5)
    (hload : load_save_game L buf = some m) :
    (save_game L m buf).1 = true ∧ BufEquiv (save_game L m buf).2 buf := by
  simp only [load_save_game, Option.bind_eq_some, Option.some.injEq] at hload
  obtain ⟨cashV, hcash, lightV, hlight, moveV, hmove, targetV, htarget,
    engineV, hengine, laserV, hlaser, c1, hc1, c2, hc2, c3, hc3, c4, hc4,
    c5, hc5, heq⟩ := hload
  subst heq
  refine runOps_restores buf _ ?_ buf ⟨rfl, fun i _ => rfl⟩
  intro op hop
  simp only [save_ops, List.mem_append, List.mem_cons, List.not_mem_nil,
    or_false] at hop
  rcases hop with ((((((rfl | rfl | rfl | rfl | rfl | rfl) | h1) | h2) | h3) | h4) | h5)
  · exact opRestores_num buf hWF _ _ _ hcash
  · exact opRestores_num buf hWF _ _ _ hlight
  · exact opRestores_num buf hWF _ _ _ hmove
  · exact opRestores_num buf hWF _ _ _ htarget
  · exact opRestores_num buf hWF _ _ _ hengine
  · exact opRestores_num buf hWF _ _ _ hlaser
  · exact crew_ops_restore buf hWF L.crew1 _ hc1 hclean1 op h1
  · exact crew_ops_restore buf hWF L.crew2 _ hc2 hclean2 op h2
  · exact crew_ops_restore buf hWF L.crew3 _ hc3 hclean3 op h3
  · exact crew_ops_restore buf hWF L.crew4 _ hc4 hclean4 op h4
  · exact crew_ops_restore buf hWF L.crew5 _ hc5 hclean5 op h5

/-!
## Gate and catalog lemmas
-/

theorem validate_eq_firstFailure (fs : FS) :
    validate_save_file fs = firstFailure (gateChecks fs) := by
  obtain ⟨pe, isf, rd, ct, bn, dw⟩ := fs
  simp only [validate_save_file, gateChecks, firstFailure]
  cases pe <;> cases isf <;> cases rd <;> cases dw <;>
    by_cases h4 : ct.size ≤ MAX_SAVE_FILE_SIZE <;>
    by_cases h5 : MIN_SAVE_FILE_SIZE ≤ ct.size <;>
    by_cases h6 : matchesSaveName bn = true <;>
    by_cases h7 : readAvail ct SENTINEL_SIGNATURE_ADDR SENTINEL_SIGNATURE.length
      = SENTINEL_SIGNATURE <;>
    simp_all [Nat.not_le, Nat.not_lt] <;>
    (repeat rw [if_neg (by omega)])

theorem validate_empty_iff (fs : FS) :
    (validate_save_file fs).2 = "" ↔ (validate_save_file fs).1 = true := by
  unfold validate_save_file
  split_ifs <;> decide

theorem validate_savegame_name (fs : FS)
    (h1 : fs.pathExists = true) (h2 : fs.isFile = true) (h3 : fs.readable = true)
    (h4 : fs.contents.size ≤ MAX_SAVE_FILE_SIZE)
    (h5 : MIN_SAVE_FILE_SIZE ≤ fs.contents.size)
    (h6 : fs.baseName = savegameName) :
    validate_save_file fs = (false, reasonBadName) := by
  unfold validate_save_file
  rw [if_neg (by simp [h1]), if_neg (by simp [h2]), if_neg (by simp [h3]),
    if_neg (by omega), if_neg (by omega), if_pos (by rw [h6]; decide)]

theorem get_item_code_isSome (valid : List Nat) (c : Nat) :
    (get_item_code valid (some c)).isSome = true ↔ c ∈ valid := by
  simp only [get_item_code]
  split
  · rename_i h
    simp [h]
  · rename_i h
    simp [h]

/-!
## Claim theorems
-/

/-- **C1** (amended).  Round-trip law: a well-formed buffer that passes
`validate_save_file` and whose five crew-name fields are clean — ASCII
bytes whose trailing whitespace consists of spaces only — re-encodes,
after an unmodified decode, to a buffer byte-for-byte identical to the
original (`save_game` succeeds and its output agrees with the input
buffer at every address).  The cleanliness proviso is forced:
`read_string` strips every trailing whitespace character and `save_game`
re-pads with spaces, so a TAB at the end of a name field comes back as a
space (see the counterexample). -/
theorem C1_roundtrip_amended (L : Layout) (fs : FS) (buf : Buffer) (m : SaveModel)
    (hWF : buf.WF)
    (_hfs : fs.contents = buf)
    (_hvalid : validate_save_file fs = (true, ""))
    (hclean1 : NameFieldClean buf L.crew1)
    (hclean2 : NameFieldClean buf L.crew2)
    (hclean3 : NameFieldClean buf L.crew3)
    (hclean4 : NameFieldClean buf L.crew4)
    (hclean5 : NameFieldClean buf L.crew5)
    (hload : load_save_game L buf = some m) :
    (save_game L m buf).1 = true ∧ BufEquiv (save_game L m buf).2 buf :=
  save_after_load L buf m hWF hclean1 hclean2 hclean3 hclean4 hclean5 hload

/-- **C1** witness: the clean example image decodes to `exModel` and
re-encodes to an identical buffer. -/
theorem C1_roundtrip_amended_witness :
    exBufClean.WF ∧ exFsClean.contents = exBufClean ∧
    validate_save_file exFsClean = (true, "") ∧
    NameFieldClean exBufClean exLayout.crew1 ∧
    NameFieldClean exBufClean exLayout.crew2 ∧
    NameFieldClean exBufClean exLayout.crew3 ∧
    NameFieldClean exBufClean exLayout.crew4 ∧
    NameFieldClean exBufClean exLayout.crew5 ∧
    load_save_game exLayout exBufClean = some exModel ∧
    ((save_game exLayout exModel exBufClean).1 = true ∧
      BufEquiv (save_game exLayout exModel exBufClean).2 exBufClean) := by
  have hWF : exBufClean.WF := fun i _ => Nat.mod_lt _ (by decide)
  have h1 : NameFieldClean exBufClean exLayout.crew1 := by
    unfold NameFieldClean fieldBytes
    decide
  have h2 : NameFieldClean exBufClean exLayout.crew2 := by
    unfold NameFieldClean fieldBytes
    decide
  have h3 : NameFieldClean exBufClean exLayout.crew3 := by
    unfold NameFieldClean fieldBytes
    decide
  have h4 : NameFieldClean exBufClean exLayout.crew4 := by
    unfold NameFieldClean fieldBytes
    decide
  have h5 : NameFieldClean exBufClean exLayout.crew5 := by
    unfold NameFieldClean fieldBytes
    decide
  have hload : load_save_game exLayout exBufClean = some exModel := by rfl
  exact ⟨hWF, rfl, rfl, h1, h2, h3, h4, h5, hload,
    C1_roundtrip_amended exLayout exFsClean exBufClean exModel hWF rfl rfl
      h1 h2 h3 h4 h5 hload⟩

/-- **C1** counterexample: the image `exBufTab` passes the validation
gate, decodes to `exModel`, and re-encoding that unmodified model
succeeds — but the byte at address 101 (the TAB inside the first crew
name field) comes back as a space, so the output buffer is not
byte-for-byte identical to the original. -/
theorem C1_counterexample :
    validate_save_file exFsTab = (true, "") ∧
    load_save_game exLayout exBufTab = some exModel ∧
    (save_game exLayout exModel exBufTab).1 = true ∧
    (save_game exLayout exModel exBufTab).2.byteAt 101 = 32 ∧
    exBufTab.byteAt 101 = 9 ∧ (32 : Nat) ≠ 9 :=
  ⟨rfl, rfl, rfl, rfl, rfl, by decide⟩

/-- **C2** (amended).  With `length` bytes available, `read_string`
succeeds and returns the bytes decoded as ASCII — bytes at or above
`0x80` replaced by the U+FFFD placeholder (`decodeByte`) rather than
failing — with the maximal trailing run of whitespace characters
removed: the part removed is all whitespace, and what remains does not
end in whitespace.  The claim's "trailing spaces (0x20) only" is
amended to "trailing whitespace", since Python's `rstrip()` also strips
TAB, LF, VT, FF, CR and FS–US (see the counterexample). -/
theorem C2_read_string_amended (buf : Buffer) (addr len : Nat)
    (h : addr + len ≤ buf.size) :
    ∃ l pad, read_string buf addr len = some l ∧
      (fieldBytes buf addr len).map decodeByte = l ++ pad ∧
      (∀ c ∈ pad, pyWs c = true) ∧
      (∀ c, l.getLast? = some c → pyWs c = false) := by
  refine ⟨rstripChars ((fieldBytes buf addr len).map decodeByte),
    (((fieldBytes buf addr len).map decodeByte).reverse.takeWhile pyWs).reverse,
    ?_, rstrip_split _, ?_, ?_⟩
  · unfold read_string
    rw [if_pos h]
    congr 1
    unfold rstripChars
    congr 2
    simp [fieldBytes, List.map_map, Function.comp]
  · intro c hc
    exact List.mem_takeWhile_imp (List.mem_reverse.mp hc)
  · intro c hc
    unfold rstripChars at hc
    rw [List.getLast?_reverse] at hc
    have := List.head?_dropWhile_not pyWs
      ((fieldBytes buf addr len).map decodeByte).reverse
    rw [hc] at this
    simpa using this

/-- **C2** witness: the amended read on the concrete two-byte buffer
`"A"`, TAB. -/
theorem C2_read_string_amended_witness :
    0 + 2 ≤ exBufAB.size ∧
    ∃ l pad, read_string exBufAB 0 2 = some l ∧
      (fieldBytes exBufAB 0 2).map decodeByte = l ++ pad ∧
      (∀ c ∈ pad, pyWs c = true) ∧
      (∀ c, l.getLast? = some c → pyWs c = false) :=
  ⟨by decide, C2_read_string_amended exBufAB 0 2 (by decide)⟩

/-- **C2** counterexample: on the two bytes `"A"`, TAB, `read_string`
strips the trailing TAB as well, while the claim-side reading (trim
spaces only) keeps it — the two results differ. -/
theorem C2_counterexample :
    read_string exBufAB 0 2 = some [65] ∧
    readTextClaim exBufAB 0 2 = some [65, 9] ∧
    read_string exBufAB 0 2 ≠ readTextClaim exBufAB 0 2 :=
  ⟨rfl, rfl, by decide⟩

/-- **C3** (confirmed).  For any width `w ≥ 1` and any integer value,
`write_bytes` fails with the range error exactly when the value is
negative or exceeds `2^(8·w) - 1`; otherwise it succeeds and stores the
little-endian encoding. -/
theorem C3_write_bytes_range (buf : Buffer) (addr : Nat) (w : Nat) (v : Int)
    (hw : 1 ≤ w) :
    (write_bytes buf addr v w = .error .outOfRange ↔
      (v < 0 ∨ (2 ^ (8 * w) - 1 : Int) < v)) ∧
    (¬(v < 0 ∨ (2 ^ (8 * w) - 1 : Int) < v) →
      write_bytes buf addr v w = .ok (storeBytes buf addr v.toNat w)) := by
  have hpow : (256 : Int) ^ w = 2 ^ (8 * w) := by
    rw [pow_mul]
    norm_num
  have hiff : (v < 0 ∨ (256 ^ w - 1 : Int) < v) ↔
      (v < 0 ∨ (2 ^ (8 * w) - 1 : Int) < v) := by rw [hpow]
  unfold write_bytes
  rw [if_neg (by omega)]
  by_cases hc : v < 0 ∨ (256 ^ w - 1 : Int) < v
  · rw [if_pos hc]
    exact ⟨⟨fun _ => hiff.mp hc, fun _ => rfl⟩, fun h => absurd (hiff.mp hc) h⟩
  · rw [if_neg hc]
    refine ⟨⟨fun h => Except.noConfusion h, fun h => absurd (hiff.mpr h) hc⟩,
      fun _ => rfl⟩

/-- **C3** witness: for the three-byte cash field, 16777216 is rejected
with the range error and 16777215 is written successfully. -/
theorem C3_write_bytes_range_witness :
    (1 ≤ 3) ∧
    write_bytes exBuf16 0 16777216 3 = .error .outOfRange ∧
    write_bytes exBuf16 0 16777215 3 =
      .ok (storeBytes exBuf16 0 ((16777215 : Int)).toNat 3) :=
  ⟨by decide,
   (C3_write_bytes_range exBuf16 0 3 16777216 (by decide)).1.mpr (by decide),
   (C3_write_bytes_range exBuf16 0 3 16777215 (by decide)).2 (by decide)⟩

/-- **C4** (confirmed).  Field isolation: a successful `write_bytes` to
an in-file range changes exactly the `width` bytes starting at the
offset — every other byte keeps its previous value and the size is
unchanged — and the changed range holds the little-endian encoding of
the value; likewise a successful `write_string` changes exactly its
`length`-byte range, which holds the space-padded text. -/
theorem C4_field_isolation :
    (∀ (buf : Buffer) (a : Nat) (v : Int) (w : Nat) (b2 : Buffer),
      write_bytes buf a v w = .ok b2 → a + w ≤ buf.size →
      b2.size = buf.size ∧
      (∀ i, i < buf.size → (i < a ∨ a + w ≤ i) → b2.byteAt i = buf.byteAt i) ∧
      (∀ j, j < w → b2.byteAt (a + j) = v.toNat / 256 ^ j % 256)) ∧
    (∀ (buf : Buffer) (a : Nat) (s : List Nat) (len : Nat) (b2 : Buffer),
      write_string buf a s len = .ok b2 → a + len ≤ buf.size →
      b2.size = buf.size ∧
      (∀ i, i < buf.size → (i < a ∨ a + len ≤ i) → b2.byteAt i = buf.byteAt i) ∧
      (∀ j, j < len →
        b2.byteAt (a + j) = (s ++ List.replicate (len - s.length) 32).getD j 0)) := by
  constructor
  · intro buf a v w b2 hok hbound
    unfold write_bytes at hok
    split at hok
    · exact Except.noConfusion hok
    · split at hok
      · exact Except.noConfusion hok
      · have hb2 : b2 = storeBytes buf a v.toNat w := (Except.ok.inj hok).symm
        subst hb2
        refine ⟨storeBytes_size buf a v.toNat w hbound, ?_, ?_⟩
        · intro i hi hout
          exact storeBytes_byteAt_out buf a v.toNat w i hout hi
        · intro j hj
          rw [storeBytes_byteAt_in buf a v.toNat w (a + j) (by omega) (by omega),
            Nat.add_sub_cancel_left]
  · intro buf a s len b2 hok hbound
    unfold write_string at hok
    split at hok
    · exact Except.noConfusion hok
    · split at hok
      · exact Except.noConfusion hok
      · rename_i hlen _
        have hlenp : (s ++ List.replicate (len - s.length) 32).length = len := by
          simp only [List.length_append, List.length_replicate]
          omega
        have hb2 : b2 = storeList buf a (s ++ List.replicate (len - s.length) 32) :=
          (Except.ok.inj hok).symm
        subst hb2
        refine ⟨?_, ?_, ?_⟩
        · rw [storeList_size buf a _ (by rw [hlenp]; omega)]
        · intro i hi hout
          exact storeList_byteAt_out buf a _ i (by rw [hlenp]; omega) hi
        · intro j hj
          rw [storeList_byteAt_in buf a _ (a + j) (by omega) (by rw [hlenp]; omega)]
          congr 1
          omega

/-- **C4** witness: a numeric write of 999999 into bytes 4–6 and a text
write of `"Zara"` into bytes 0–9 of a sixteen-byte buffer, each leaving
all other bytes untouched. -/
theorem C4_field_isolation_witness :
    (write_bytes exBuf16 4 999999 3 =
        .ok (storeBytes exBuf16 4 ((999999 : Int)).toNat 3) ∧
      4 + 3 ≤ exBuf16.size ∧
      ((storeBytes exBuf16 4 ((999999 : Int)).toNat 3).size = exBuf16.size ∧
        (∀ i, i < exBuf16.size → (i < 4 ∨ 4 + 3 ≤ i) →
          (storeBytes exBuf16 4 ((999999 : Int)).toNat 3).byteAt i = exBuf16.byteAt i) ∧
        (∀ j, j < 3 →
          (storeBytes exBuf16 4 ((999999 : Int)).toNat 3).byteAt (4 + j)
            = ((999999 : Int)).toNat / 256 ^ j % 256))) ∧
    (write_string exBuf16 0 [90, 97, 114, 97] 10 =
        .ok (storeList exBuf16 0 ([90, 97, 114, 97] ++ List.replicate (10 - 4) 32)) ∧
      0 + 10 ≤ exBuf16.size ∧
      ((storeList exBuf16 0 ([90, 97, 114, 97] ++ List.replicate (10 - 4) 32)).size
          = exBuf16.size ∧
        (∀ i, i < exBuf16.size → (i < 0 ∨ 0 + 10 ≤ i) →
          (storeList exBuf16 0 ([90, 97, 114, 97] ++ List.replicate (10 - 4) 32)).byteAt i
            = exBuf16.byteAt i) ∧
        (∀ j, j < 10 →
          (storeList exBuf16 0 ([90, 97, 114, 97] ++ List.replicate (10 - 4) 32)).byteAt (0 + j)
            = ([90, 97, 114, 97] ++ List.replicate (10 - ([90, 97, 114, 97] : List Nat).length) 32).getD j 0))) := by
  refine ⟨⟨rfl, by decide, ?_⟩, ⟨rfl, by decide, ?_⟩⟩
  · exact C4_field_isolation.1 exBuf16 4 999999 3 _ rfl (by decide)
  · exact C4_field_isolation.2 exBuf16 0 [90, 97, 114, 97] 10 _ rfl (by decide)

/-- **C6** (amended).  The string-too-long failure occurs exactly when
the value is longer than the field; otherwise, provided the value is
ASCII, `write_string` writes exactly `length` bytes — the value
right-padded with spaces — and, when the value has no trailing
whitespace of its own, decoding the written field returns the value
(e.g. `"Zara"` into a ten-byte field).  The ASCII proviso is forced: a
non-ASCII value within the length bound raises the encoding error
instead of writing (see the counterexample, and C10). -/
theorem C6_write_string_amended :
    (∀ (buf : Buffer) (a : Nat) (s : List Nat) (len : Nat),
      write_string buf a s len = .error .tooLong ↔ len < s.length) ∧
    (∀ (buf : Buffer) (a : Nat) (s : List Nat) (len : Nat),
      s.length ≤ len → (∀ c ∈ s, c < 128) →
      write_string buf a s len =
        .ok (storeList buf a (s ++ List.replicate (len - s.length) 32)) ∧
      (a + len ≤ buf.size → rstripChars s = s →
        read_string (storeList buf a (s ++ List.replicate (len - s.length) 32)) a len
          = some s)) := by
  constructor
  · intro buf a s len
    unfold write_string
    split
    · rename_i hlt
      simp [hlt]
    · rename_i hge
      split
      · constructor
        · intro h
          exact absurd (Err.noConfusion (Except.error.inj h)) (fun h2 => h2)
        · intro h
          exact absurd h hge
      · constructor
        · intro h
          exact Except.noConfusion h
        · intro h
          exact absurd h hge
  · intro buf a s len hlen hascii
    have hlenp : (s ++ List.replicate (len - s.length) 32).length = len := by
      simp only [List.length_append, List.length_replicate]
      omega
    have hany : (s ++ List.replicate (len - s.length) 32).any (fun c => 128 ≤ c) = false := by
      simp only [List.any_eq_false, decide_eq_true_eq]
      intro c hc
      rcases List.mem_append.mp hc with hs | hr
      · have := hascii c hs
        omega
      · have := List.eq_of_mem_replicate hr
        omega
    have hok : write_string buf a s len =
        .ok (storeList buf a (s ++ List.replicate (len - s.length) 32)) := by
      unfold write_string
      rw [if_neg (by omega), if_neg (by rw [hany]; simp)]
    refine ⟨hok, ?_⟩
    intro hbound hstrip
    have hmap : ((List.range len).map fun j =>
        decodeByte ((storeList buf a (s ++ List.replicate (len - s.length) 32)).byteAt (a + j)))
        = s ++ List.replicate (len - s.length) 32 := by
      apply List.ext_getElem
      · simp [hlenp]
      · intro j h1 h2
        simp only [List.getElem_map, List.getElem_range]
        rw [storeList_byteAt_in buf a _ (a + j) (by omega)
            (by rw [hlenp]; simpa using h1),
          Nat.add_sub_cancel_left,
          List.getD_eq_getElem _ _ (by rw [hlenp]; simpa using h1)]
        have hmem := List.getElem_mem (l := s ++ List.replicate (len - s.length) 32)
          (n := j) (by rw [hlenp]; simpa using h1)
        rcases List.mem_append.mp hmem with hs | hr
        · have := hascii _ hs
          simp [decodeByte, this]
        · have := List.eq_of_mem_replicate hr
          simp [decodeByte, this]
    unfold read_string
    rw [if_pos (by rw [storeList_size buf a _ (by rw [hlenp]; omega)]; omega)]
    rw [hmap, rstrip_append_replicate, hstrip]

/-- **C6** witness: writing `"Zara"` into a ten-byte field writes the
bytes of `"Zara"` plus six spaces, and decoding the written field
returns `"Zara"`. -/
theorem C6_write_string_amended_witness :
    ([90, 97, 114, 97] : List Nat).length ≤ 10 ∧
    (∀ c ∈ ([90, 97, 114, 97] : List Nat), c < 128) ∧
    (write_string exBuf16 0 [90, 97, 114, 97] 10 =
      .ok (storeList exBuf16 0
        ([90, 97, 114, 97] ++ List.replicate (10 - ([90, 97, 114, 97] : List Nat).length) 32)) ∧
    (0 + 10 ≤ exBuf16.size → rstripChars [90, 97, 114, 97] = [90, 97, 114, 97] →
      read_string (storeList exBuf16 0
        ([90, 97, 114, 97] ++ List.replicate (10 - ([90, 97, 114, 97] : List Nat).length) 32)) 0 10
        = some [90, 97, 114, 97])) :=
  ⟨by decide, by decide,
   C6_write_string_amended.2 exBuf16 0 [90, 97, 114, 97] 10 (by decide) (by decide)⟩

/-- **C6** counterexample: the one-character non-ASCII value `[228]`
fits a ten-byte field (so no string-too-long error is possible), yet the
write fails with the encoding error instead of writing — refuting
"otherwise it writes exactly `length` bytes". -/
theorem C6_counterexample :
    write_string exBufAB 0 [228] 10 = .error .notAscii ∧
    ¬ (10 < ([228] : List Nat).length) ∧
    Err.notAscii ≠ Err.tooLong :=
  ⟨rfl, by decide, by decide⟩

/-- **C10** (confirmed).  A text write can fail even when the value fits
the field: a value within the length bound containing a character at or
above `0x80` makes `write_string` raise the encoding error
(`UnicodeEncodeError`) instead of writing. -/
theorem C10_write_string_nonascii (buf : Buffer) (a : Nat) (s : List Nat)
    (len : Nat) (hlen : s.length ≤ len) (hns : ∃ c ∈ s, 128 ≤ c) :
    write_string buf a s len = .error .notAscii := by
  unfold write_string
  rw [if_neg (by omega), if_pos ?_]
  obtain ⟨c, hc, hge⟩ := hns
  exact List.any_eq_true.mpr ⟨c, List.mem_append_left _ hc, by simpa using hge⟩

/-- **C10** witness: the in-length value `[228]` (a single non-ASCII
character) is rejected with the encoding error. -/
theorem C10_write_string_nonascii_witness :
    ([228] : List Nat).length ≤ 10 ∧ (∃ c ∈ ([228] : List Nat), 128 ≤ c) ∧
    write_string exBufAB 0 [228] 10 = .error .notAscii :=
  ⟨by decide, by decide,
   C10_write_string_nonascii exBufAB 0 [228] 10 (by decide) (by decide)⟩

/-- **C5** (amended).  The validation gate runs its checks in the spec's
order, short-circuiting on the first failure (`validate_save_file`
coincides with the short-circuit evaluation `firstFailure` of the
ordered check list `gateChecks`); the eight failure reasons are pairwise
distinct and non-empty; the reason is empty exactly when the file is
valid; and a file named `savegame.fm` that exists, is a readable regular
file, and whose size lies within the gate's bounds fails with the
filename-pattern reason regardless of its contents.  The size proviso in
the last part is forced: the size checks run before the filename check,
so an out-of-size `savegame.fm` fails with a size reason instead (see
the counterexample). -/
theorem C5_validate_gate_amended :
    (∀ fs, validate_save_file fs = firstFailure (gateChecks fs)) ∧
    (∀ fs, (validate_save_file fs).2 = "" ↔ (validate_save_file fs).1 = true) ∧
    ([reasonNotFound, reasonNotFile, reasonNotReadable, reasonTooLarge,
      reasonTooSmall, reasonBadName, reasonBadSignature,
      reasonDirNotWritable].Pairwise (· ≠ ·) ∧
     ∀ r ∈ [reasonNotFound, reasonNotFile, reasonNotReadable, reasonTooLarge,
      reasonTooSmall, reasonBadName, reasonBadSignature,
      reasonDirNotWritable], r ≠ "") ∧
    (∀ fs, fs.pathExists = true → fs.isFile = true → fs.readable = true →
      fs.contents.size ≤ MAX_SAVE_FILE_SIZE →
      MIN_SAVE_FILE_SIZE ≤ fs.contents.size →
      fs.baseName = savegameName →
      validate_save_file fs = (false, reasonBadName)) :=
  ⟨validate_eq_firstFailure, validate_empty_iff, ⟨by decide, by decide⟩,
   validate_savegame_name⟩

/-- **C5** witness: the in-bounds `savegame.fm` file fails with the
filename-pattern reason, and on the undersized one the gate agrees with
the ordered-check evaluation. -/
theorem C5_validate_gate_amended_witness :
    validate_save_file exFsSavegameOk = (false, reasonBadName) ∧
    validate_save_file exFsSavegameSmall = firstFailure (gateChecks exFsSavegameSmall) :=
  ⟨C5_validate_gate_amended.2.2.2 exFsSavegameOk rfl rfl rfl (by decide)
     (by decide) rfl,
   C5_validate_gate_amended.1 exFsSavegameSmall⟩

/-- **C5** counterexample: a 100-byte file named `savegame.fm` fails
with the too-small reason, not the filename-pattern reason — its
contents (here, their size) do matter. -/
theorem C5_counterexample :
    validate_save_file exFsSavegameSmall = (false, reasonTooSmall) ∧
    reasonTooSmall ≠ reasonBadName :=
  ⟨rfl, by decide⟩

/-- **C7** (code bug).  The code `0x40` is absent from the catalog, so
the CLI's `display_equipment` — which looks names up with the raw
indexing `ITEM_NAMES[...]` — fails (`KeyError`) on an equipment block
holding it, while the GUI's lookup (`ITEM_NAMES.get(code, f"Unknown
{hex(code)}")`, also used by the test inspector) synthesizes the
`"Unknown 0x40"` placeholder as the spec requires. -/
theorem C7_unknown_code_lookup :
    ITEM_NAMES 0x40 = none ∧
    display_equipment exEquipUnknown = none ∧
    guiItemName 0x40 = "Unknown 0x40" ∧
    guiItemName 0x08 = "Hands" ∧
    display_equipment exEquip ≠ none :=
  ⟨rfl, rfl, rfl, rfl, by decide⟩

/-- **C8** (confirmed).  Slot-class validation: a candidate code is
accepted exactly when it belongs to the slot's declared set — armor
against `VALID_ARMOR`, equipped weapon against `VALID_WEAPONS`, on-hand
weapon against `VALID_WEAPONS` plus the empty-slot sentinel, inventory
against `VALID_INVENTORY` (which contains the ammunition codes and the
sentinel) — and rejecting an out-of-class code leaves the equipment
unchanged, while accepting one stores exactly that code. -/
theorem C8_slot_validation :
    (∀ c : Nat, (get_item_code VALID_ARMOR (some c)).isSome = true ↔ c ∈ VALID_ARMOR) ∧
    (∀ c : Nat, (get_item_code VALID_WEAPONS (some c)).isSome = true ↔ c ∈ VALID_WEAPONS) ∧
    (∀ c : Nat, (get_item_code (VALID_WEAPONS ++ [EMPTY_SLOT]) (some c)).isSome = true ↔
      (c ∈ VALID_WEAPONS ∨ c = EMPTY_SLOT)) ∧
    (∀ c : Nat, (get_item_code VALID_INVENTORY (some c)).isSome = true ↔ c ∈ VALID_INVENTORY) ∧
    (∀ c ∈ VALID_AMMO, c ∈ VALID_INVENTORY) ∧
    EMPTY_SLOT ∈ VALID_INVENTORY ∧
    (∀ (e : Equipment) (c : Nat), c ∉ VALID_ARMOR → editArmor e (some c) = e) ∧
    (∀ (e : Equipment) (c : Nat), c ∈ VALID_ARMOR →
      editArmor e (some c) = { e with armor := c }) ∧
    (∀ (e : Equipment) (c : Nat), c ∉ VALID_WEAPONS → editWeapon e (some c) = e) ∧
    (∀ (e : Equipment) (i c : Nat), c ∉ VALID_WEAPONS ++ [EMPTY_SLOT] →
      editOnhand e i (some c) = e) ∧
    (∀ (e : Equipment) (i c : Nat), c ∉ VALID_INVENTORY →
      editInventory e i (some c) = e) := by
  refine ⟨fun c => get_item_code_isSome _ c, fun c => get_item_code_isSome _ c,
    fun c => ?_, fun c => get_item_code_isSome _ c,
    fun c hc => List.mem_append_right _ hc, by decide,
    fun e c hc => ?_, fun e c hc => ?_, fun e c hc => ?_,
    fun e i c hc => ?_, fun e i c hc => ?_⟩
  · rw [get_item_code_isSome]
    simp [List.mem_append]
  · simp [editArmor, get_item_code, hc]
  · simp [editArmor, get_item_code, hc]
  · simp [editWeapon, get_item_code, hc]
  · simp [editOnhand, get_item_code, hc]
  · simp [editInventory, get_item_code, hc]

/-- **C8** witness: the weapon-only code `0x08` offered to the armor
slot is rejected and the equipment survives unchanged; the armor code
`0x2F` is accepted into the armor slot; the empty-slot sentinel is
accepted for an on-hand weapon slot. -/
theorem C8_slot_validation_witness :
    ((8 : Nat) ∉ VALID_ARMOR) ∧ editArmor exEquip (some 8) = exEquip ∧
    ((0x2F : Nat) ∈ VALID_ARMOR) ∧
    editArmor exEquip (some 0x2F) = { exEquip with armor := 0x2F } ∧
    ((get_item_code (VALID_WEAPONS ++ [EMPTY_SLOT]) (some EMPTY_SLOT)).isSome = true) :=
  ⟨by decide,
   C8_slot_validation.2.2.2.2.2.2.1 exEquip 8 (by decide),
   by decide,
   C8_slot_validation.2.2.2.2.2.2.2.1 exEquip 0x2F (by decide),
   (C8_slot_validation.2.2.1 EMPTY_SLOT).mpr (Or.inr rfl)⟩

/-- **C9** (confirmed).  Encoding is not atomic: with a cash value that
fits its field but a light-energy value out of byte range, `save_game`
catches the raised range error and returns `False` — yet the file's
cash field already holds the new value (the write performed before the
failing one is not rolled back), while the bytes outside the cash field
are untouched. -/
theorem C9_save_not_atomic (L : Layout) (m : SaveModel) (buf : Buffer)
    (hw : 1 ≤ L.party_cash_length)
    (hcash : m.cash < 256 ^ L.party_cash_length)
    (hlight : 255 < m.light_energy) :
    (save_game L m buf).1 = false ∧
    (∀ j, j < L.party_cash_length →
      (save_game L m buf).2.byteAt (L.party_cash_addr + j)
        = m.cash / 256 ^ j % 256) ∧
    (∀ i, i < buf.size →
      (i < L.party_cash_addr ∨ L.party_cash_addr + L.party_cash_length ≤ i) →
      (save_game L m buf).2.byteAt i = buf.byteAt i) := by
  have hle : (Int.ofNat m.cash) ≤ 256 ^ L.party_cash_length - 1 := by
    rw [Int.ofNat_eq_natCast]
    have hcast : ((m.cash : Nat) : Int) < (256 : Int) ^ L.party_cash_length := by
      exact_mod_cast hcash
    linarith
  have hok1 : write_bytes buf L.party_cash_addr (Int.ofNat m.cash) L.party_cash_length
      = .ok (storeBytes buf L.party_cash_addr m.cash L.party_cash_length) := by
    have := write_bytes_ok buf L.party_cash_addr (Int.ofNat m.cash)
      L.party_cash_length hw (Int.ofNat_nonneg _) hle
    simpa using this
  have herr2 : write_bytes (storeBytes buf L.party_cash_addr m.cash L.party_cash_length)
      L.party_light_energy_addr (Int.ofNat m.light_energy) 1 = .error .outOfRange := by
    unfold write_bytes
    rw [if_neg (by omega), if_pos ?_]
    refine Or.inr ?_
    rw [Int.ofNat_eq_natCast]
    have : (255 : Int) < (m.light_energy : Int) := by exact_mod_cast hlight
    norm_num
    linarith
  have hrun : runOps (save_ops L m) buf
      = (false, storeBytes buf L.party_cash_addr m.cash L.party_cash_length) := by
    simp only [save_ops, List.cons_append, List.nil_append, runOps, applyOp,
      hok1, herr2]
  refine ⟨?_, ?_, ?_⟩
  · show (runOps (save_ops L m) buf).1 = false
    rw [hrun]
  · intro j hj
    show (runOps (save_ops L m) buf).2.byteAt _ = _
    rw [hrun, storeBytes_byteAt_in buf _ _ _ _ (by omega) (by omega),
      Nat.add_sub_cancel_left]
  · intro i hi hout
    show (runOps (save_ops L m) buf).2.byteAt i = buf.byteAt i
    rw [hrun, storeBytes_byteAt_out buf _ _ _ i hout hi]

/-- **C9** witness: on the example layout, saving a model with cash
999999 (fits the three-byte field) and light energy 300 (out of byte
range) returns `False` while the cash bytes in the file already hold
999999. -/
theorem C9_save_not_atomic_witness :
    1 ≤ exLayout.party_cash_length ∧
    exModelBadLight.cash < 256 ^ exLayout.party_cash_length ∧
    255 < exModelBadLight.light_energy ∧
    ((save_game exLayout exModelBadLight exBuf16).1 = false ∧
     (∀ j, j < exLayout.party_cash_length →
       (save_game exLayout exModelBadLight exBuf16).2.byteAt
           (exLayout.party_cash_addr + j)
         = exModelBadLight.cash / 256 ^ j % 256) ∧
     (∀ i, i < exBuf16.size →
       (i < exLayout.party_cash_addr ∨
         exLayout.party_cash_addr + exLayout.party_cash_length ≤ i) →
       (save_game exLayout exModelBadLight exBuf16).2.byteAt i = exBuf16.byteAt i)) :=
  ⟨by decide, by decide, by decide,
   C9_save_not_atomic exLayout exModelBadLight exBuf16 (by decide) (by decide)
     (by decide)⟩
